import Mathlib

/-!
Verification of the Level Simulation and Mode State Machine of the
labyrinth game (src/CODE.py), as a shallow embedding in Lean 4.

Modelling conventions:
* Game-grid coordinates are modelled as `Int × Int`.  In the source the
  positions are Python floats, but every operation the claims concern
  (spawning on cell multiples of 24, adding direction displacements,
  set membership tests) keeps them at exact small integers, on which
  float arithmetic is exact.
* Editor click coordinates are genuine screen floats, modelled as `ℚ`;
  Python's `round` is banker's rounding (round half to even), embedded
  as `roundHalfEven`.
* The source compares Euclidean distances `sqrt s < r` for nonnegative
  `s` and positive literal `r`; this is equivalent to `s < r ^ 2`, and
  the embedding uses the squared form to stay in exact arithmetic.
* `random.choice(list(Direction))` is modelled by passing the drawn
  direction as an explicit oracle argument `rnd`.
* Python `set`s of positions are modelled as lists, used only through
  membership.
-/

namespace Laby

/-- Config.CELL_SIZE. -/
def CELL_SIZE : Int := 24

/-- Config.PLAYER_DETECTION_RADIUS. -/
def PLAYER_DETECTION_RADIUS : Int := 100

/-- Config.COLLISION_DISTANCE. -/
def COLLISION_DISTANCE : Int := 5

/-- Config.GRID_ROWS. -/
def GRID_ROWS : Nat := 20

/-- Config.GRID_COLS. -/
def GRID_COLS : Nat := 25

/-- Positions: Python `Position(x, y)`, used via `to_tuple` as set keys. -/
abbrev Position := Int × Int

/-- Squared Euclidean distance; `Position.distance_to p q < r` in the
source is `distSq p q < r ^ 2` here (sqrt is strictly monotone on
nonnegative reals). -/
def distSq (p q : Position) : Int :=
  (p.1 - q.1) ^ 2 + (p.2 - q.2) ^ 2

/-- The `Direction` enum. -/
inductive Direction
  | UP
  | DOWN
  | LEFT
  | RIGHT
deriving DecidableEq, Repr

/-- Direction.dx: first component of the enum value
(UP = (0, 24), DOWN = (0, -24), LEFT = (-24, 0), RIGHT = (24, 0)). -/
def Direction.dx : Direction → Int
  | .UP => 0
  | .DOWN => 0
  | .LEFT => -24
  | .RIGHT => 24

/-- Direction.dy: second component of the enum value. -/
def Direction.dy : Direction → Int
  | .UP => 24
  | .DOWN => -24
  | .LEFT => 0
  | .RIGHT => 0

/-- Direction.opposite. -/
def Direction.opposite : Direction → Direction
  | .UP => .DOWN
  | .DOWN => .UP
  | .LEFT => .RIGHT
  | .RIGHT => .LEFT

/-- Direction.from_string: case-insensitive name parser defaulting to UP. -/
def Direction.from_string (s : String) : Direction :=
  if s.toLower = strUp then .UP
  else if s.toLower = strDown then .DOWN
  else if s.toLower = strLeft then .LEFT
  else if s.toLower = strRight then .RIGHT
  else .UP
where
  strUp : String := "up"
  strDown : String := "down"
  strLeft : String := "left"
  strRight : String := "right"

/-- The mutable state of `Player`: position, gold, move history and the
two replay flags.  A freshly constructed `Player` has empty history and
both flags cleared. -/
structure PlayerState where
  pos : Position
  gold : Int
  move_history : List Direction
  is_auto_mode : Bool
  is_reverse_mode : Bool
deriving DecidableEq, Repr

/-- A freshly constructed player placed at the level's spawn position. -/
def initialPlayer (spawn : Position) : PlayerState :=
  ⟨spawn, 0, [], false, false⟩

/-- Player.move: move in the given direction if valid; returns the new
state together with the source's boolean result. -/
def Player.move (p : PlayerState) (d : Direction) (walls : List Position) :
    PlayerState × Bool :=
  let new_pos : Position := (p.pos.1 + d.dx, p.pos.2 + d.dy)
  if new_pos ∉ walls ∧ p.is_auto_mode = false ∧ p.is_reverse_mode = false then
    ({ p with pos := new_pos, move_history := p.move_history ++ [d.opposite] }, true)
  else
    (p, false)

/-- Player.move_to_direction: relocate without validation (auto mode and
victory reverse-replay). -/
def Player.moveToDirection (p : PlayerState) (d : Direction) : PlayerState :=
  { p with pos := (p.pos.1 + d.dx, p.pos.2 + d.dy) }

/-- A sequence of `Player.move` calls, as issued by the keyboard handler;
the boolean is true when every call in the sequence returned true. -/
def runMoves (walls : List Position) : PlayerState → List Direction → PlayerState × Bool
  | p, [] => (p, true)
  | p, d :: ds =>
    let r := Player.move p d walls
    let r2 := runMoves walls r.1 ds
    (r2.1, r.2 && r2.2)

/-- Net x-displacement of a list of directions. -/
def sumDx (l : List Direction) : Int := (l.map Direction.dx).sum

/-- Net y-displacement of a list of directions. -/
def sumDy (l : List Direction) : Int := (l.map Direction.dy).sum

/-- The invariant maintained by valid play: the current position plus the
net displacement of the recorded history equals the spawn position. -/
def HistInv (spawn : Position) (p : PlayerState) : Prop :=
  p.pos.1 + sumDx p.move_history = spawn.1 ∧
  p.pos.2 + sumDy p.move_history = spawn.2

/-! ## Enemy AI (class Enemy) -/

/-- The mutable state of an `Enemy` relevant to the claims: its position,
its current heading and the active flag.  The wall/treasure obstacle
sets (set by `set_obstacles`) and the player reference are passed as
explicit arguments; the claims assume a player reference is present. -/
structure EnemyState where
  pos : Position
  current_direction : Direction
  is_active : Bool
deriving DecidableEq, Repr

/-- Enemy._is_close_to_player: Euclidean distance to the player strictly
below `PLAYER_DETECTION_RADIUS`, in squared form. -/
def isCloseToPlayer (enemyPos playerPos : Position) : Bool :=
  decide (distSq enemyPos playerPos < PLAYER_DETECTION_RADIUS ^ 2)

/-- Enemy._move_towards_player, the heading-update part: greedy
axis-aligned chase heading; the subsequent `_try_move` step is
`enemyTryMove` below. -/
def moveTowardsDirection (enemyPos playerPos : Position)
    (cur : Direction) : Direction :=
  if playerPos.1 < enemyPos.1 then .LEFT
  else if enemyPos.1 < playerPos.1 then .RIGHT
  else if playerPos.2 < enemyPos.2 then .DOWN
  else if enemyPos.2 < playerPos.2 then .UP
  else cur

/-- The heading an enemy holds right before `_try_move` on a tick of
`Enemy.move`: the chase heading when the player is within the detection
radius (`_move_towards_player`), the unchanged current heading otherwise
(`_move_random`). -/
def enemyChooseHeading (e : EnemyState) (playerPos : Position) : Direction :=
  if isCloseToPlayer e.pos playerPos then
    moveTowardsDirection e.pos playerPos e.current_direction
  else e.current_direction

/-- Enemy._try_move: step one cell in the current heading unless the
destination is a wall or treasure position; on collision the position is
kept and a new heading `rnd` is drawn (`random.choice(list(Direction))`,
modelled as an oracle argument). -/
def enemyTryMove (e : EnemyState) (walls treasures : List Position)
    (rnd : Direction) : EnemyState :=
  let new_pos : Position :=
    (e.pos.1 + e.current_direction.dx, e.pos.2 + e.current_direction.dy)
  if new_pos ∉ walls ∧ new_pos ∉ treasures then
    { e with pos := new_pos }
  else
    { e with current_direction := rnd }

/-- One tick of `Enemy.move` (the simulation part; the self-rescheduling
timer is external): no-op when inactive, otherwise choose the heading and
attempt the step. -/
def enemyTick (e : EnemyState) (playerPos : Position)
    (walls treasures : List Position) (rnd : Direction) : EnemyState :=
  if e.is_active then
    enemyTryMove { e with current_direction := enemyChooseHeading e playerPos }
      walls treasures rnd
  else e

/-! ## Treasure collection during play (Game.run_level) -/

/-- A live `Treasure` entity: its position and gold value. -/
structure TreasureE where
  pos : Position
  gold : Int
deriving DecidableEq, Repr

/-- Player.is_collision: Euclidean distance strictly below
`COLLISION_DISTANCE`, in squared form. -/
def isCollision (p q : Position) : Bool :=
  decide (distSq p q < COLLISION_DISTANCE ^ 2)

/-- The per-level play state touched by the treasure-collection pass:
the player's gold, the live treasure list, and the wall and
treasure-occupancy sets shared with the enemies via `set_obstacles`. -/
structure PlayState where
  player_gold : Int
  treasures : List TreasureE
  treasure_positions : List Position
  walls : List Position
deriving DecidableEq, Repr

/-- The loop body of the treasure-collection check in `Game.run_level`:
iterate over a copy of the live treasure list; each treasure colliding
with the player adds its gold and is removed from the live list. -/
def collectLoop (playerPos : Position) :
    List TreasureE → Int → Int × List TreasureE
  | [], g => (g, [])
  | t :: rest, g =>
      if isCollision playerPos t.pos then collectLoop playerPos rest (g + t.gold)
      else
        let r := collectLoop playerPos rest g
        (r.1, t :: r.2)

/-- One treasure-collection pass of the `Game.run_level` frame loop. -/
def collectTreasuresPass (playerPos : Position) (s : PlayState) : PlayState :=
  let r := collectLoop playerPos s.treasures s.player_gold
  { s with player_gold := r.1, treasures := r.2 }

/-! ## Level setup (Game.setup_level) -/

/-- Python `round(n / 2)` for a natural number `n`, as used by
`GameLevel.get_screen_position` (`round(len(...) / 2)`).  Python's
`round` is banker's rounding: exact halves round to the nearest even
integer. -/
def roundHalf (n : Nat) : Int :=
  if n % 2 = 0 then ((n / 2 : Nat) : Int)
  else if (n / 2) % 2 = 0 then ((n / 2 : Nat) : Int)
  else ((n / 2 : Nat) : Int) + 1

/-- The empty string (default first row of an empty layout). -/
def noRow : String := ""

/-- GameLevel.get_screen_position: grid (row, col) to screen
coordinates, centred using the first row's length and the row count. -/
def get_screen_position (layout : List String) (row col : Nat) : Position :=
  ( -(CELL_SIZE * roundHalf (layout.headD noRow).length) + (col : Int) * CELL_SIZE,
    CELL_SIZE * roundHalf layout.length - (row : Int) * CELL_SIZE )

/-- The level state produced by the parsing loop of `Game.setup_level`:
occupancy sets and recorded positions.  Treasure and enemy entities are
recorded by their positions. -/
structure SetupAcc where
  walls : List Position
  player_spawn : Option Position
  start_pos : Option Position
  end_pos : Option Position
  treasure_positions : List Position
  enemy_positions : List Position
deriving DecidableEq, Repr

/-- The body of the per-character parsing loop of `Game.setup_level`:
'X' adds a wall; 'P' records the spawn; 'T' adds a treasure; 'E' adds an
enemy; 'S' records the start, is the spawn when none was recorded yet,
and is also added to the wall set; 'F' records the end. -/
def setupChar (layout : List String) (acc : SetupAcc) (r c : Nat)
    (ch : Char) : SetupAcc :=
  let pos := get_screen_position layout r c
  if ch = 'X' then { acc with walls := pos :: acc.walls }
  else if ch = 'P' then { acc with player_spawn := some pos }
  else if ch = 'T' then
    { acc with treasure_positions := pos :: acc.treasure_positions }
  else if ch = 'E' then
    { acc with enemy_positions := pos :: acc.enemy_positions }
  else if ch = 'S' then
    { acc with start_pos := some pos,
               player_spawn :=
                 if acc.player_spawn = none then some pos
                 else acc.player_spawn,
               walls := pos :: acc.walls }
  else if ch = 'F' then { acc with end_pos := some pos }
  else acc

/-- The inner loop of `Game.setup_level`: `for col_idx, char in
enumerate(row)`, with the running column index made explicit. -/
def setupCharsAux (layout : List String) (r : Nat) :
    Nat → List Char → SetupAcc → SetupAcc
  | _, [], acc => acc
  | c, ch :: rest, acc =>
      setupCharsAux layout r (c + 1) rest (setupChar layout acc r c ch)

/-- The outer loop of `Game.setup_level`: `for row_idx, row in
enumerate(level.layout)`. -/
def setupRowsAux (layout : List String) :
    Nat → List String → SetupAcc → SetupAcc
  | _, [], acc => acc
  | r, row :: rest, acc =>
      setupRowsAux layout (r + 1) rest (setupCharsAux layout r 0 row.toList acc)

/-- The state of a freshly constructed `GameLevel`. -/
def initSetupAcc : SetupAcc := ⟨[], none, none, none, [], []⟩

/-- The parsing part of `Game.setup_level` on a fresh level. -/
def setupLevel (layout : List String) : SetupAcc :=
  setupRowsAux layout 0 layout initSetupAcc

/-- The recorded player spawn lies in the wall set (holds throughout
setup of a layout without a 'P' cell). -/
def SpawnInv (acc : SetupAcc) : Prop :=
  ∀ p, acc.player_spawn = some p → p ∈ acc.walls

/-- Row "XXX" of the witness layout. -/
def rowXXX : String := "XXX"

/-- Row "XSX" of the witness layout. -/
def rowXSX : String := "XSX"

/-- A minimal custom-level layout whose 'S' cell is the spawn. -/
def layoutW : List String := [rowXXX, rowXSX, rowXXX]

/-! ## Level editor (class LevelEditor) -/

/-- Python `round` on a rational: banker's rounding, i.e. to the nearest
integer, resolving exact halves to the even neighbour. -/
def roundHalfEven (q : ℚ) : Int :=
  if q - ⌊q⌋ < 1 / 2 then ⌊q⌋
  else if 1 / 2 < q - ⌊q⌋ then ⌊q⌋ + 1
  else if ⌊q⌋ % 2 = 0 then ⌊q⌋ else ⌊q⌋ + 1

/-- LevelEditor.pixel_to_cell: `round(pos / CELL_SIZE)` per coordinate.
(The source returns the pair as a list, which is always truthy in the
caller's `if cell` test.) -/
def pixel_to_cell (pos_x pos_y : ℚ) : Int × Int :=
  (roundHalfEven (pos_x / ((CELL_SIZE : Int) : ℚ)),
   roundHalfEven (pos_y / ((CELL_SIZE : Int) : ℚ)))

/-- LevelEditor.cell_to_pixel: `[24 * x, 24 * y]`. -/
def cell_to_pixel (x y : Int) : Int × Int := (24 * x, 24 * y)

/-- The palette symbols 'm' (wall), 't' (treasure), 'e' (enemy),
's' (start), 'f' (end). -/
inductive EdSymbol
  | m
  | t
  | e
  | s
  | f
deriving DecidableEq, Repr

/-- The editor state the claims concern: the selected palette symbol and
the list of placed `(symbol, pixel_x, pixel_y)` tuples. -/
structure EditorState where
  selected_item : Option EdSymbol
  placed_items : List (EdSymbol × ℚ × ℚ)
deriving DecidableEq, Repr

/-- The geometry of a `Button`. -/
structure Button where
  x : ℚ
  y : ℚ
  width : ℚ
  height : ℚ

/-- Button.contains_point. -/
def Button.containsPoint (b : Button) (px py : ℚ) : Prop :=
  b.x ≤ px ∧ px ≤ b.x + b.width ∧ b.y ≤ py ∧ py ≤ b.y + b.height

instance (b : Button) (px py : ℚ) : Decidable (b.containsPoint px py) :=
  inferInstanceAs (Decidable (_ ∧ _ ∧ _ ∧ _))

/-- `Button(-600, -200, 120, 50, "PLAY MAP")`. -/
def playButton : Button := ⟨-600, -200, 120, 50⟩

/-- `Button(-600, -300, 120, 50, "CLEAR ALL")`. -/
def clearButton : Button := ⟨-600, -300, 120, 50⟩

/-- The palette hit band `-612 < x < -588` of `handle_click`. -/
def paletteBand (x : ℚ) : Prop := -612 < x ∧ x < -588

instance (x : ℚ) : Decidable (paletteBand x) :=
  inferInstanceAs (Decidable (_ ∧ _))

/-- The palette-selection arm of `handle_click` (y bands for
'e', 't', 'm', 's', 'f'; a miss leaves the selection unchanged). -/
def selectPalette (st : EditorState) (y : ℚ) : EditorState :=
  if 88 < y ∧ y < 112 then { st with selected_item := some EdSymbol.e }
  else if 188 < y ∧ y < 212 then { st with selected_item := some EdSymbol.t }
  else if 288 < y ∧ y < 312 then { st with selected_item := some EdSymbol.m }
  else if -12 < y ∧ y < 12 then { st with selected_item := some EdSymbol.s }
  else if -112 < y ∧ y < -88 then { st with selected_item := some EdSymbol.f }
  else st

/-- A placed item already occupies this exact canonical pixel position
(`any(px == pixel[0] and py == pixel[1] ...)`). -/
def tileOccupied (st : EditorState) (px py : ℚ) : Prop :=
  ∃ it ∈ st.placed_items, it.2.1 = px ∧ it.2.2 = py

instance (st : EditorState) (px py : ℚ) : Decidable (tileOccupied st px py) :=
  inferInstanceAs (Decidable (∃ it ∈ st.placed_items, it.2.1 = px ∧ it.2.2 = py))

/-- A start marker is already placed. -/
def hasStart (st : EditorState) : Prop :=
  ∃ it ∈ st.placed_items, it.1 = EdSymbol.s

instance (st : EditorState) : Decidable (hasStart st) :=
  inferInstanceAs (Decidable (∃ it ∈ st.placed_items, it.1 = EdSymbol.s))

/-- An end marker is already placed. -/
def hasEnd (st : EditorState) : Prop :=
  ∃ it ∈ st.placed_items, it.1 = EdSymbol.f

instance (st : EditorState) : Decidable (hasEnd st) :=
  inferInstanceAs (Decidable (∃ it ∈ st.placed_items, it.1 = EdSymbol.f))

/-- The "no stacking" message. -/
def stackMsg : String := "Cannot stack items on same tile!"

/-- The "one start only" message. -/
def oneStartMsg : String := "Only ONE start allowed!"

/-- The "one end only" message. -/
def oneEndMsg : String := "Only ONE end allowed!"

/-- The 'play' action string returned by `handle_click`. -/
def actionPlay : String := "play"

/-- The 'clear' action string returned by `handle_click`. -/
def actionClear : String := "clear"

/-- The in-bounds grid-placement block of `handle_click` (from the
no-stacking check to the append; the palette item lookup always succeeds
for the five symbols).  The second component is the returned action
(always `None` on this path), the third the transient messages shown. -/
def placeItem (st : EditorState) (sym : EdSymbol) (pixel : Int × Int) :
    EditorState × Option String × List String :=
  if tileOccupied st ((pixel.1 : ℚ)) ((pixel.2 : ℚ)) then (st, none, [stackMsg])
  else if sym = EdSymbol.s ∧ hasStart st then (st, none, [oneStartMsg])
  else if sym = EdSymbol.f ∧ hasEnd st then (st, none, [oneEndMsg])
  else
    ({ st with placed_items :=
        st.placed_items ++ [(sym, (pixel.1 : ℚ), (pixel.2 : ℚ))] }, none, [])

/-- LevelEditor.handle_click: control buttons first (CLEAR ALL invokes
`clear_all`, emptying the placement list), then the palette band, then
grid placement when a palette symbol is selected and the nearest cell
passes the `abs(cell) < GRID//2` bounds test. -/
def handle_click (st : EditorState) (x y : ℚ) :
    EditorState × Option String × List String :=
  if playButton.containsPoint x y then (st, some actionPlay, [])
  else if clearButton.containsPoint x y then
    ({ st with placed_items := [] }, some actionClear, [])
  else if paletteBand x then (selectPalette st y, none, [])
  else
    match st.selected_item with
    | none => (st, none, [])
    | some sym =>
        if |(pixel_to_cell x y).1| < (GRID_COLS : Int) / 2 ∧
            |(pixel_to_cell x y).2| < (GRID_ROWS : Int) / 2 then
          placeItem st sym
            (cell_to_pixel (pixel_to_cell x y).1 (pixel_to_cell x y).2)
        else (st, none, [])

/-! ### Layout export (LevelEditor.get_custom_level_layout) -/

/-- Grid cell read on a list-of-rows layout (row-major); the default is
a character no grid ever contains. -/
def getC (g : List (List Char)) (r c : Nat) : Char :=
  (g.getD r []).getD c ' '

/-- Grid cell write (`layout[row][col] = ch`). -/
def setC (g : List (List Char)) (r c : Nat) (ch : Char) : List (List Char) :=
  g.set r ((g.getD r []).set c ch)

/-- The empty export grid of `get_custom_level_layout`. -/
def emptyGrid : List (List Char) :=
  List.replicate GRID_ROWS (List.replicate GRID_COLS '.')

/-- The in-game layout symbol written for each palette symbol. -/
def symbolChar : EdSymbol → Char
  | .m => 'X'
  | .t => 'T'
  | .e => 'E'
  | .s => 'S'
  | .f => 'F'

/-- The `(row, col)` grid coordinate of a centred cell, as computed in
`get_custom_level_layout` (`col = cell[0] + GRID_COLS // 2`,
`row = cell[1] + GRID_ROWS // 2`). -/
def cellToRowCol (cell : Int × Int) : Int × Int :=
  (cell.2 + (GRID_ROWS : Int) / 2, cell.1 + (GRID_COLS : Int) / 2)

/-- The grid with start/end bookkeeping accumulated by the placement
loop of `get_custom_level_layout`. -/
structure ExportAcc where
  grid : List (List Char)
  start_pos : Option (Int × Int)
  end_pos : Option (Int × Int)

/-- The body of the placement loop of `get_custom_level_layout`: map the
stored pixel back to a (row, col), and write the item's symbol when in
bounds, recording start and end coordinates. -/
def placeStep (acc : ExportAcc) (item : EdSymbol × ℚ × ℚ) : ExportAcc :=
  let cell := pixel_to_cell item.2.1 item.2.2
  let rc := cellToRowCol cell
  if 0 ≤ rc.1 ∧ rc.1 < (GRID_ROWS : Int) ∧ 0 ≤ rc.2 ∧ rc.2 < (GRID_COLS : Int) then
    { grid := setC acc.grid rc.1.toNat rc.2.toNat (symbolChar item.1),
      start_pos := if item.1 = EdSymbol.s then some rc else acc.start_pos,
      end_pos := if item.1 = EdSymbol.f then some rc else acc.end_pos }
  else acc

/-- The placement loop of `get_custom_level_layout` over the placed
items, starting from the all-floor grid. -/
def exportAccOf (placed : List (EdSymbol × ℚ × ℚ)) : ExportAcc :=
  placed.foldl placeStep ⟨emptyGrid, none, none⟩

/-- One iteration of the top/bottom perimeter loop (`for col in
range(GRID_COLS)`): wall the top-row and bottom-row cell of this column
when still floor and not the recorded start or end. -/
def fillTBStep (sp ep : Option (Int × Int)) (g : List (List Char))
    (col : Nat) : List (List Char) :=
  let g1 :=
    if getC g 0 col = '.' ∧ sp ≠ some (0, (col : Int)) ∧
        ep ≠ some (0, (col : Int)) then
      setC g 0 col 'X'
    else g
  if getC g1 (GRID_ROWS - 1) col = '.' ∧
      sp ≠ some ((GRID_ROWS : Int) - 1, (col : Int)) ∧
      ep ≠ some ((GRID_ROWS : Int) - 1, (col : Int)) then
    setC g1 (GRID_ROWS - 1) col 'X'
  else g1

/-- The top/bottom perimeter loop. -/
def fillTB (sp ep : Option (Int × Int)) (g : List (List Char)) :
    List (List Char) :=
  (List.range GRID_COLS).foldl (fillTBStep sp ep) g

/-- One iteration of the left/right perimeter loop (`for row in
range(GRID_ROWS)`). -/
def fillLRStep (sp ep : Option (Int × Int)) (g : List (List Char))
    (row : Nat) : List (List Char) :=
  let g1 :=
    if getC g row 0 = '.' ∧ sp ≠ some ((row : Int), 0) ∧
        ep ≠ some ((row : Int), 0) then
      setC g row 0 'X'
    else g
  if getC g1 row (GRID_COLS - 1) = '.' ∧
      sp ≠ some ((row : Int), (GRID_COLS : Int) - 1) ∧
      ep ≠ some ((row : Int), (GRID_COLS : Int) - 1) then
    setC g1 row (GRID_COLS - 1) 'X'
  else g1

/-- The left/right perimeter loop. -/
def fillLR (sp ep : Option (Int × Int)) (g : List (List Char)) :
    List (List Char) :=
  (List.range GRID_ROWS).foldl (fillLRStep sp ep) g

/-- LevelEditor.get_custom_level_layout: place all items, fill the
perimeter, and return the rows as strings. -/
def get_custom_level_layout (placed : List (EdSymbol × ℚ × ℚ)) :
    List String :=
  (fillLR (exportAccOf placed).start_pos (exportAccOf placed).end_pos
      (fillTB (exportAccOf placed).start_pos (exportAccOf placed).end_pos
        (exportAccOf placed).grid)).map String.mk

/-- Character at (row, col) of an exported layout. -/
def layoutChar (ls : List String) (r c : Nat) : Char :=
  ((ls.getD r noRow).toList).getD c ' '

/-- The export grids have `GRID_ROWS` rows of `GRID_COLS` characters. -/
def Shape (g : List (List Char)) : Prop :=
  g.length = GRID_ROWS ∧ ∀ r, r < GRID_ROWS → (g.getD r []).length = GRID_COLS

/-! ## Theorems -/

/-- The opposite direction has the negated displacement. -/
theorem opposite_dx (d : Direction) : d.opposite.dx = -d.dx := by
  cases d <;> rfl

theorem opposite_dy (d : Direction) : d.opposite.dy = -d.dy := by
  cases d <;> rfl

theorem sumDx_append (l₁ l₂ : List Direction) :
    sumDx (l₁ ++ l₂) = sumDx l₁ + sumDx l₂ := by
  simp [sumDx]

theorem sumDy_append (l₁ l₂ : List Direction) :
    sumDy (l₁ ++ l₂) = sumDy l₁ + sumDy l₂ := by
  simp [sumDy]

theorem sumDx_reverse (l : List Direction) : sumDx l.reverse = sumDx l := by
  simp [sumDx, List.sum_reverse]

theorem sumDy_reverse (l : List Direction) : sumDy l.reverse = sumDy l := by
  simp [sumDy, List.sum_reverse]

/-- Unchecked replay of a list of directions adds the net displacement. -/
theorem foldl_moveToDirection_pos (p : PlayerState) (l : List Direction) :
    (List.foldl Player.moveToDirection p l).pos
      = (p.pos.1 + sumDx l, p.pos.2 + sumDy l) := by
  induction l generalizing p with
  | nil => simp [sumDx, sumDy]
  | cons d ds ih =>
      simp only [List.foldl_cons, ih, Player.moveToDirection, sumDx, sumDy,
        List.map_cons, List.sum_cons]
      rw [Prod.mk.injEq]
      omega

theorem move_success_state {p p' : PlayerState} {d : Direction}
    {walls : List Position} (h : Player.move p d walls = (p', true)) :
    p' = { p with pos := (p.pos.1 + d.dx, p.pos.2 + d.dy),
                  move_history := p.move_history ++ [d.opposite] } := by
  simp only [Player.move] at h
  split at h
  · exact ((Prod.mk.injEq _ _ _ _).mp h).1.symm
  · exact absurd ((Prod.mk.injEq _ _ _ _).mp h).2 (by simp)

theorem move_preserves_histInv {spawn : Position} {p p' : PlayerState}
    {d : Direction} {walls : List Position}
    (h : Player.move p d walls = (p', true)) (hinv : HistInv spawn p) :
    HistInv spawn p' := by
  obtain ⟨h1, h2⟩ := hinv
  rw [move_success_state h]
  unfold HistInv sumDx sumDy at *
  simp only [List.map_append, List.sum_append, List.map_cons, List.map_nil,
    List.sum_cons, List.sum_nil, opposite_dx, opposite_dy] at *
  omega

theorem runMoves_preserves_histInv {spawn : Position} {walls : List Position} :
    ∀ {ds : List Direction} {p p' : PlayerState},
      runMoves walls p ds = (p', true) → HistInv spawn p → HistInv spawn p'
  | [], p, p', h, hinv => by
      simp only [runMoves] at h
      obtain ⟨rfl, -⟩ := Prod.mk.injEq _ _ _ _ ▸ h
      exact hinv
  | d :: ds, p, p', h, hinv => by
      simp only [runMoves] at h
      obtain ⟨h1, h2⟩ := Prod.mk.injEq _ _ _ _ ▸ h
      rw [Bool.and_eq_true] at h2
      have hmv : Player.move p d walls = ((Player.move p d walls).1, true) := by
        rw [← h2.1]
      have hrun : runMoves walls (Player.move p d walls).1 ds = (p', true) := by
        rw [← h1, ← h2.2]
      exact runMoves_preserves_histInv hrun
        (move_preserves_histInv hmv hinv)

/-- C1: starting from the spawn position, after any sequence of
`Player.move` calls that all return true, replaying the resulting
`move_history` in reverse order with `move_to_direction` (as the victory
replay in `Game.run_level` does) puts the player back exactly at the
spawn position; and a single successful move appends `d.opposite` to the
history, and replaying that appended entry restores the pre-move
position. -/
theorem reverse_replay_returns_to_spawn :
    (∀ (spawn : Position) (walls : List Position) (ds : List Direction)
        (p' : PlayerState),
        runMoves walls (initialPlayer spawn) ds = (p', true) →
        (List.foldl Player.moveToDirection p' p'.move_history.reverse).pos
          = spawn) ∧
    (∀ (p : PlayerState) (d : Direction) (walls : List Position)
        (p' : PlayerState),
        Player.move p d walls = (p', true) →
        p'.move_history = p.move_history ++ [d.opposite] ∧
        (Player.moveToDirection p' d.opposite).pos = p.pos) := by
  constructor
  · intro spawn walls ds p' h
    have hinv : HistInv spawn p' := by
      refine runMoves_preserves_histInv h ?_
      constructor <;> simp [initialPlayer, sumDx, sumDy]
    rw [foldl_moveToDirection_pos, sumDx_reverse, sumDy_reverse]
    obtain ⟨h1, h2⟩ := hinv
    exact Prod.ext h1 h2
  · intro p d walls p' h
    rw [move_success_state h]
    refine ⟨rfl, ?_⟩
    simp only [Player.moveToDirection, opposite_dx, opposite_dy]
    exact Prod.ext (by ring_nf) (by ring_nf)

/-- Witness for C1: two successful moves (UP then LEFT) from spawn
(0, 0) with no walls; the reverse replay of the recorded history ends at
the spawn, and a single successful RIGHT move from (0, 0) is undone by
replaying the appended history entry LEFT. -/
theorem reverse_replay_returns_to_spawn_witness :
    (List.foldl Player.moveToDirection
        ⟨(-24, 24), 0, [Direction.DOWN, Direction.RIGHT], false, false⟩
        [Direction.DOWN, Direction.RIGHT].reverse).pos = ((0 : Int), (0 : Int)) ∧
    (Player.moveToDirection
        ⟨(24, 0), 0, [Direction.LEFT], false, false⟩ Direction.LEFT).pos
      = ((0 : Int), (0 : Int)) := by
  constructor
  · exact reverse_replay_returns_to_spawn.1 ((0 : Int), (0 : Int)) []
      [Direction.UP, Direction.LEFT]
      ⟨(-24, 24), 0, [Direction.DOWN, Direction.RIGHT], false, false⟩
      (by decide)
  · exact (reverse_replay_returns_to_spawn.2
      ⟨((0 : Int), (0 : Int)), 0, [], false, false⟩ Direction.RIGHT []
      ⟨(24, 0), 0, [Direction.LEFT], false, false⟩ (by decide)).2

/-- C2: `Player.move` returns false and mutates nothing whenever the
candidate position lies in the wall set or either replay flag is set;
otherwise it returns true, moves to the candidate and appends the
opposite direction to the history. -/
theorem player_move_spec (p : PlayerState) (d : Direction)
    (walls : List Position) :
    ((p.pos.1 + d.dx, p.pos.2 + d.dy) ∈ walls ∨ p.is_auto_mode = true ∨
        p.is_reverse_mode = true →
      Player.move p d walls = (p, false)) ∧
    ((p.pos.1 + d.dx, p.pos.2 + d.dy) ∉ walls → p.is_auto_mode = false →
      p.is_reverse_mode = false →
      Player.move p d walls =
        ({ p with pos := (p.pos.1 + d.dx, p.pos.2 + d.dy),
                  move_history := p.move_history ++ [d.opposite] }, true)) := by
  constructor
  · intro h
    unfold Player.move
    rw [if_neg]
    rintro ⟨hw, ha, hr⟩
    rcases h with h | h | h
    · exact hw h
    · rw [h] at ha; exact Bool.true_eq_false.mp ha
    · rw [h] at hr; exact Bool.true_eq_false.mp hr
  · intro hw ha hr
    unfold Player.move
    rw [if_pos ⟨hw, ha, hr⟩]

/-- Witness for C2: from (0, 0), a LEFT move into the wall at (-24, 0)
is rejected with no mutation, and an UP move into free space succeeds. -/
theorem player_move_spec_witness :
    Player.move ⟨((0 : Int), (0 : Int)), 0, [], false, false⟩
        Direction.LEFT [((-24 : Int), (0 : Int))]
      = (⟨((0 : Int), (0 : Int)), 0, [], false, false⟩, false) ∧
    Player.move ⟨((0 : Int), (0 : Int)), 0, [], false, false⟩
        Direction.UP [((-24 : Int), (0 : Int))]
      = (⟨((0 : Int), (24 : Int)), 0, [Direction.DOWN], false, false⟩, true) := by
  constructor
  · exact (player_move_spec _ _ _).1 (Or.inl (by decide))
  · exact (player_move_spec _ _ _).2 (by decide) rfl rfl

/-- C8: `opposite` is an involution pairing UP with DOWN and LEFT with
RIGHT. -/
theorem opposite_opposite :
    (∀ d : Direction, d.opposite.opposite = d) ∧
    Direction.UP.opposite = Direction.DOWN ∧
    Direction.DOWN.opposite = Direction.UP ∧
    Direction.LEFT.opposite = Direction.RIGHT ∧
    Direction.RIGHT.opposite = Direction.LEFT :=
  ⟨fun d => by cases d <;> rfl, rfl, rfl, rfl, rfl⟩

/-- C3: when the player is within the detection radius, the chase heading
compares x first (LEFT/RIGHT on strict inequality) and compares y only at
equal x (DOWN/UP on strict inequality); and in the concrete scenario of a
player 50 to the enemy's left with detection radius 100, the chosen
heading is LEFT, deterministically. -/
theorem chase_heading_spec :
    (∀ (e : EnemyState) (playerPos : Position),
      isCloseToPlayer e.pos playerPos = true →
      (playerPos.1 < e.pos.1 →
          enemyChooseHeading e playerPos = Direction.LEFT) ∧
      (e.pos.1 < playerPos.1 →
          enemyChooseHeading e playerPos = Direction.RIGHT) ∧
      (playerPos.1 = e.pos.1 → playerPos.2 < e.pos.2 →
          enemyChooseHeading e playerPos = Direction.DOWN) ∧
      (playerPos.1 = e.pos.1 → e.pos.2 < playerPos.2 →
          enemyChooseHeading e playerPos = Direction.UP)) ∧
    (∀ (cur : Direction) (active : Bool),
      isCloseToPlayer ((0 : Int), (0 : Int)) ((-50 : Int), (0 : Int)) = true ∧
      distSq ((0 : Int), (0 : Int)) ((-50 : Int), (0 : Int)) = 50 ^ 2 ∧
      enemyChooseHeading ⟨((0 : Int), (0 : Int)), cur, active⟩
          ((-50 : Int), (0 : Int)) = Direction.LEFT) := by
  constructor
  · intro e playerPos hclose
    unfold enemyChooseHeading
    rw [if_pos hclose]
    unfold moveTowardsDirection
    refine ⟨fun h1 => by rw [if_pos h1], fun h2 => ?_, fun h3 h4 => ?_,
      fun h5 h6 => ?_⟩
    · rw [if_neg (by omega), if_pos h2]
    · rw [if_neg (by omega), if_neg (by omega), if_pos h4]
    · rw [if_neg (by omega), if_neg (by omega), if_neg (by omega), if_pos h6]
  · intro cur active
    refine ⟨by decide, by decide, ?_⟩
    cases cur <;> cases active <;> decide

/-- Witness for C3: an enemy at (0, 0) with the player at (-50, 0) is
within the detection radius and picks heading LEFT. -/
theorem chase_heading_spec_witness :
    enemyChooseHeading ⟨((0 : Int), (0 : Int)), Direction.UP, true⟩
      ((-50 : Int), (0 : Int)) = Direction.LEFT :=
  (chase_heading_spec.1 ⟨((0 : Int), (0 : Int)), Direction.UP, true⟩
    ((-50 : Int), (0 : Int)) (by decide)).1 (by decide)

/-- C4: `_try_move` into a wall or treasure cell keeps the position and
replaces the heading by the freshly drawn random direction; a free
destination is taken with the heading kept. -/
theorem enemy_try_move_spec (e : EnemyState) (walls treasures : List Position)
    (rnd : Direction) :
    ((e.pos.1 + e.current_direction.dx, e.pos.2 + e.current_direction.dy)
          ∈ walls ∨
      (e.pos.1 + e.current_direction.dx, e.pos.2 + e.current_direction.dy)
          ∈ treasures →
      enemyTryMove e walls treasures rnd = { e with current_direction := rnd }) ∧
    ((e.pos.1 + e.current_direction.dx, e.pos.2 + e.current_direction.dy)
          ∉ walls →
      (e.pos.1 + e.current_direction.dx, e.pos.2 + e.current_direction.dy)
          ∉ treasures →
      enemyTryMove e walls treasures rnd =
        { e with pos := (e.pos.1 + e.current_direction.dx,
                         e.pos.2 + e.current_direction.dy) }) := by
  constructor
  · intro h
    unfold enemyTryMove
    rw [if_neg]
    rintro ⟨hw, ht⟩
    rcases h with h | h
    · exact hw h
    · exact ht h
  · intro hw ht
    unfold enemyTryMove
    rw [if_pos ⟨hw, ht⟩]

/-- Witness for C4: an enemy at (0, 0) heading RIGHT into the treasure
cell (24, 0) stays put and takes the drawn heading DOWN; the same enemy
with free cells ahead steps to (24, 0). -/
theorem enemy_try_move_spec_witness :
    enemyTryMove ⟨((0 : Int), (0 : Int)), Direction.RIGHT, true⟩ []
        [((24 : Int), (0 : Int))] Direction.DOWN
      = ⟨((0 : Int), (0 : Int)), Direction.DOWN, true⟩ ∧
    enemyTryMove ⟨((0 : Int), (0 : Int)), Direction.RIGHT, true⟩ [] []
        Direction.DOWN
      = ⟨((24 : Int), (0 : Int)), Direction.RIGHT, true⟩ := by
  constructor
  · exact (enemy_try_move_spec _ _ _ _).1 (Or.inr (by decide))
  · exact (enemy_try_move_spec _ _ _ _).2 (by decide) (by decide)

theorem collectLoop_treasures (playerPos : Position) :
    ∀ (ts : List TreasureE) (g : Int),
      (collectLoop playerPos ts g).2
        = ts.filter (fun t => !(isCollision playerPos t.pos))
  | [], g => rfl
  | t :: rest, g => by
      unfold collectLoop
      by_cases h : isCollision playerPos t.pos = true
      · rw [if_pos h]
        simp [List.filter, h, collectLoop_treasures playerPos rest]
      · rw [if_neg h]
        simp only [Bool.not_eq_true] at h
        simp [List.filter, h, collectLoop_treasures playerPos rest]

/-- C9: a treasure-collection pass removes the collided treasures from
the live list but never touches the treasure-occupancy set or the wall
set; hence after any sequence of passes the occupancy set is the
original one, and an enemy step whose destination is any position of
that set is aborted with the enemy's position unchanged. -/
theorem collected_treasures_stay_blocking :
    (∀ (playerPos : Position) (s : PlayState),
      (collectTreasuresPass playerPos s).treasures
          = s.treasures.filter (fun t => !(isCollision playerPos t.pos)) ∧
      (collectTreasuresPass playerPos s).treasure_positions
          = s.treasure_positions ∧
      (collectTreasuresPass playerPos s).walls = s.walls) ∧
    (∀ (s : PlayState) (playerPositions : List Position),
      (playerPositions.foldl (fun st pp => collectTreasuresPass pp st)
          s).treasure_positions = s.treasure_positions) ∧
    (∀ (e : EnemyState) (walls treasures : List Position) (rnd : Direction),
      (e.pos.1 + e.current_direction.dx, e.pos.2 + e.current_direction.dy)
          ∈ treasures →
      (enemyTryMove e walls treasures rnd).pos = e.pos) := by
  refine ⟨fun playerPos s => ⟨collectLoop_treasures playerPos s.treasures
      s.player_gold, rfl, rfl⟩, fun s pps => ?_, fun e walls treasures rnd h => ?_⟩
  · induction pps generalizing s with
    | nil => rfl
    | cons pp rest ih => rw [List.foldl_cons]; exact ih _
  · unfold enemyTryMove
    rw [if_neg]
    rintro ⟨-, ht⟩
    exact ht h

/-- Witness for C9: collecting the treasure at (0, 0) (player standing on
it) removes it from the live list, leaves (0, 0) in the occupancy set,
and an enemy at (-24, 0) heading RIGHT into (0, 0) does not move. -/
theorem collected_treasures_stay_blocking_witness :
    (collectTreasuresPass ((0 : Int), (0 : Int))
        ⟨0, [⟨((0 : Int), (0 : Int)), 100⟩], [((0 : Int), (0 : Int))],
          []⟩).treasures = [] ∧
    (collectTreasuresPass ((0 : Int), (0 : Int))
        ⟨0, [⟨((0 : Int), (0 : Int)), 100⟩], [((0 : Int), (0 : Int))],
          []⟩).treasure_positions = [((0 : Int), (0 : Int))] ∧
    (enemyTryMove ⟨((-24 : Int), (0 : Int)), Direction.RIGHT, true⟩ []
        [((0 : Int), (0 : Int))] Direction.UP).pos = ((-24 : Int), (0 : Int)) := by
  refine ⟨?_, ?_, ?_⟩
  · rw [(collected_treasures_stay_blocking.1 _ _).1]; decide
  · exact (collected_treasures_stay_blocking.1 _ _).2.1
  · exact collected_treasures_stay_blocking.2.2
      ⟨((-24 : Int), (0 : Int)), Direction.RIGHT, true⟩ []
      [((0 : Int), (0 : Int))] Direction.UP (by decide)

theorem setupChar_walls_mono {layout : List String} {acc : SetupAcc}
    {r c : Nat} {ch : Char} {q : Position} (h : q ∈ acc.walls) :
    q ∈ (setupChar layout acc r c ch).walls := by
  simp only [setupChar]
  split_ifs <;> first | exact List.mem_cons_of_mem _ h | exact h

theorem setupCharsAux_walls_mono {layout : List String} {r : Nat}
    {q : Position} :
    ∀ {l : List Char} {c : Nat} {acc : SetupAcc}, q ∈ acc.walls →
      q ∈ (setupCharsAux layout r c l acc).walls
  | [], _, _, h => h
  | _ :: rest, c, acc, h =>
      setupCharsAux_walls_mono (l := rest) (setupChar_walls_mono h)

theorem setupRowsAux_walls_mono {layout : List String} {q : Position} :
    ∀ {L : List String} {r : Nat} {acc : SetupAcc}, q ∈ acc.walls →
      q ∈ (setupRowsAux layout r L acc).walls
  | [], _, _, h => h
  | _ :: rest, r, acc, h =>
      setupRowsAux_walls_mono (L := rest) (setupCharsAux_walls_mono h)

theorem setupCharsAux_mem_S (layout : List String) (r : Nat) :
    ∀ (l : List Char) (c0 i : Nat) (acc : SetupAcc),
      l[i]? = some 'S' →
      get_screen_position layout r (c0 + i)
        ∈ (setupCharsAux layout r c0 l acc).walls := by
  intro l
  induction l with
  | nil => intro c0 i acc h; simp at h
  | cons ch rest ih =>
      intro c0 i acc h
      cases i with
      | zero =>
          simp only [List.getElem?_cons_zero, Option.some.injEq] at h
          subst h
          simp only [setupCharsAux, Nat.add_zero]
          refine setupCharsAux_walls_mono ?_
          simp [setupChar]
      | succ i =>
          simp only [List.getElem?_cons_succ] at h
          have : c0 + (i + 1) = (c0 + 1) + i := by omega
          rw [this]
          exact ih (c0 + 1) i _ h

theorem setupRowsAux_mem_S (layout : List String) :
    ∀ (L : List String) (r0 i c : Nat) (acc : SetupAcc) (row : String),
      L[i]? = some row → row.toList[c]? = some 'S' →
      get_screen_position layout (r0 + i) c
        ∈ (setupRowsAux layout r0 L acc).walls := by
  intro L
  induction L with
  | nil => intro r0 i c acc row h; simp at h
  | cons hd rest ih =>
      intro r0 i c acc row h hc
      cases i with
      | zero =>
          simp only [List.getElem?_cons_zero, Option.some.injEq] at h
          subst h
          simp only [setupRowsAux, Nat.add_zero]
          refine setupRowsAux_walls_mono ?_
          have h2 := setupCharsAux_mem_S layout r0 hd.toList 0 c acc hc
          rwa [Nat.zero_add] at h2
      | succ i =>
          simp only [List.getElem?_cons_succ] at h
          have : r0 + (i + 1) = (r0 + 1) + i := by omega
          rw [this]
          exact ih (r0 + 1) i c _ row h hc

theorem setupChar_spawnInv {layout : List String} {acc : SetupAcc}
    {r c : Nat} {ch : Char} (hch : ch ≠ 'P') (h : SpawnInv acc) :
    SpawnInv (setupChar layout acc r c ch) := by
  intro p hp
  by_cases hX : ch = 'X'
  · simp only [setupChar, if_pos hX] at hp ⊢
    exact List.mem_cons_of_mem _ (h p hp)
  by_cases hP : ch = 'P'
  · exact absurd hP hch
  by_cases hT : ch = 'T'
  · simp only [setupChar, if_neg hX, if_neg hP, if_pos hT] at hp ⊢
    exact h p hp
  by_cases hE : ch = 'E'
  · simp only [setupChar, if_neg hX, if_neg hP, if_neg hT, if_pos hE] at hp ⊢
    exact h p hp
  by_cases hS : ch = 'S'
  · simp only [setupChar, if_neg hX, if_neg hP, if_neg hT, if_neg hE,
      if_pos hS] at hp ⊢
    by_cases hn : acc.player_spawn = none
    · rw [if_pos hn, Option.some.injEq] at hp
      rw [← hp]
      exact List.mem_cons_self _ _
    · rw [if_neg hn] at hp
      exact List.mem_cons_of_mem _ (h p hp)
  by_cases hF : ch = 'F'
  · simp only [setupChar, if_neg hX, if_neg hP, if_neg hT, if_neg hE,
      if_neg hS, if_pos hF] at hp ⊢
    exact h p hp
  · simp only [setupChar, if_neg hX, if_neg hP, if_neg hT, if_neg hE,
      if_neg hS, if_neg hF] at hp ⊢
    exact h p hp

theorem setupCharsAux_spawnInv {layout : List String} {r : Nat} :
    ∀ {l : List Char} {c : Nat} {acc : SetupAcc},
      (∀ ch ∈ l, ch ≠ 'P') → SpawnInv acc →
      SpawnInv (setupCharsAux layout r c l acc)
  | [], _, _, _, h => h
  | ch :: rest, c, acc, hl, h =>
      setupCharsAux_spawnInv (l := rest)
        (fun x hx => hl x (List.mem_cons_of_mem _ hx))
        (setupChar_spawnInv (hl ch (List.mem_cons_self _ _)) h)

theorem setupRowsAux_spawnInv {layout : List String} :
    ∀ {L : List String} {r : Nat} {acc : SetupAcc},
      (∀ row ∈ L, 'P' ∉ row.toList) → SpawnInv acc →
      SpawnInv (setupRowsAux layout r L acc)
  | [], _, _, _, h => h
  | row :: rest, r, acc, hL, h =>
      setupRowsAux_spawnInv (L := rest)
        (fun x hx => hL x (List.mem_cons_of_mem _ hx))
        (setupCharsAux_spawnInv
          (fun ch hch he => hL row (List.mem_cons_self _ _) (he ▸ hch))
          h)

/-- C10: every 'S' cell of the layout is added to the wall-occupancy set
by `Game.setup_level`; in a layout without a 'P' cell (a custom level)
the recorded player spawn is therefore in the wall set; and a
`Player.move` whose candidate position lies in the wall set is rejected
with no mutation, so the player can never return to the start cell. -/
theorem start_cell_is_wall :
    (∀ (layout : List String) (r c : Nat) (row : String),
        layout[r]? = some row → row.toList[c]? = some 'S' →
        get_screen_position layout r c ∈ (setupLevel layout).walls) ∧
    (∀ (layout : List String) (p : Position),
        (∀ row ∈ layout, 'P' ∉ row.toList) →
        (setupLevel layout).player_spawn = some p →
        p ∈ (setupLevel layout).walls) ∧
    (∀ (p : PlayerState) (d : Direction) (walls : List Position),
        (p.pos.1 + d.dx, p.pos.2 + d.dy) ∈ walls →
        Player.move p d walls = (p, false)) := by
  refine ⟨fun layout r c row h hc => ?_, fun layout p hP hsp => ?_,
    fun p d walls hw => ?_⟩
  · have := setupRowsAux_mem_S layout layout 0 r c initSetupAcc row h hc
    rwa [Nat.zero_add] at this
  · exact setupRowsAux_spawnInv hP (fun q hq => by simp [initSetupAcc] at hq)
      p hsp
  · unfold Player.move
    rw [if_neg]
    rintro ⟨hnw, -, -⟩
    exact hnw hw

/-- Witness for C10: in the 3x3 layout with 'S' at (1, 1), the screen
position (-24, 24) of the 'S' cell is a wall, the recorded spawn is in
the wall set, and a LEFT move from (0, 24) back onto the spawn cell is
rejected. -/
theorem start_cell_is_wall_witness :
    ((-24 : Int), (24 : Int)) ∈ (setupLevel layoutW).walls ∧
    ((setupLevel layoutW).player_spawn = some ((-24 : Int), (24 : Int)) ∧
      ((-24 : Int), (24 : Int)) ∈ (setupLevel layoutW).walls) ∧
    Player.move ⟨((0 : Int), (24 : Int)), 0, [], false, false⟩ Direction.LEFT
        (setupLevel layoutW).walls
      = (⟨((0 : Int), (24 : Int)), 0, [], false, false⟩, false) := by
  refine ⟨?_, ⟨by decide, ?_⟩, ?_⟩
  · have := start_cell_is_wall.1 layoutW 1 1 rowXSX (by decide) (by decide)
    simpa using this
  · exact start_cell_is_wall.2.1 layoutW _ (by decide) (by decide)
  · exact start_cell_is_wall.2.2 _ Direction.LEFT _ (by decide)

theorem set_oob {α : Type} : ∀ (l : List α) (n : Nat) (a : α), l.length ≤ n →
    l.set n a = l
  | [], _, _, _ => rfl
  | _ :: _, 0, _, h => absurd h (by simp)
  | x :: xs, n + 1, a, h => by
      simp only [List.set]
      rw [set_oob xs n a (by simpa using h)]

theorem getD_set_self {α : Type} : ∀ (l : List α) (i : Nat) (a d : α), i < l.length →
    (l.set i a).getD i d = a
  | [], _, _, _, h => absurd h (by simp)
  | _ :: _, 0, _, _, _ => rfl
  | _ :: xs, i + 1, a, d, h => getD_set_self xs i a d (by simpa using h)

theorem getD_set_ne {α : Type} : ∀ (l : List α) (i j : Nat) (a d : α), i ≠ j →
    (l.set i a).getD j d = l.getD j d
  | [], _, _, _, _, _ => rfl
  | _ :: _, 0, 0, _, _, h => absurd rfl h
  | _ :: _, 0, _ + 1, _, _, _ => rfl
  | _ :: _, _ + 1, 0, _, _, _ => rfl
  | _ :: xs, i + 1, j + 1, a, d, h => getD_set_ne xs i j a d (by omega)

theorem getD_replicate {α : Type} : ∀ (n i : Nat) (x d : α), i < n →
    (List.replicate n x).getD i d = x
  | 0, _, _, _, h => absurd h (by simp)
  | _ + 1, 0, _, _, _ => rfl
  | n + 1, i + 1, x, d, h => getD_replicate n i x d (by omega)

theorem getC_setC_self {g : List (List Char)} {r c : Nat} {ch : Char}
    (hr : r < g.length) (hc : c < (g.getD r []).length) :
    getC (setC g r c ch) r c = ch := by
  unfold getC setC
  rw [getD_set_self _ _ _ _ hr, getD_set_self _ _ _ _ hc]

theorem getC_setC_row_ne {g : List (List Char)} {r c : Nat} {ch : Char}
    {r' c' : Nat} (h : r ≠ r') :
    getC (setC g r c ch) r' c' = getC g r' c' := by
  unfold getC setC
  rw [getD_set_ne _ _ _ _ _ h]

theorem getC_setC_col_ne {g : List (List Char)} {r c : Nat} {ch : Char}
    {r' c' : Nat} (h : c ≠ c') :
    getC (setC g r c ch) r' c' = getC g r' c' := by
  unfold getC setC
  by_cases hr : r = r'
  · subst hr
    by_cases hlen : r < g.length
    · rw [getD_set_self _ _ _ _ hlen, getD_set_ne _ _ _ _ _ h]
    · rw [set_oob _ _ _ (by omega)]
  · rw [getD_set_ne _ _ _ _ _ hr]

/-- A write can only make the read cell the written character or leave
it unchanged. -/
theorem getC_setC_cases (g : List (List Char)) (r c : Nat) (ch : Char)
    (r' c' : Nat) :
    getC (setC g r c ch) r' c' = getC g r' c' ∨
    getC (setC g r c ch) r' c' = ch := by
  by_cases hr : r = r'
  · subst hr
    by_cases hc : c = c'
    · subst hc
      by_cases h1 : r < g.length
      · by_cases h2 : c < (g.getD r []).length
        · exact Or.inr (getC_setC_self h1 h2)
        · left
          unfold getC setC
          rw [getD_set_self _ _ _ _ h1, set_oob _ _ _ (by omega)]
      · left
        unfold setC
        rw [set_oob _ _ _ (by omega)]
    · exact Or.inl (getC_setC_col_ne hc)
  · exact Or.inl (getC_setC_row_ne hr)

theorem setC_shape {g : List (List Char)} {r c : Nat} {ch : Char}
    (hS : Shape g) : Shape (setC g r c ch) := by
  obtain ⟨h1, h2⟩ := hS
  constructor
  · unfold setC
    rw [List.length_set]
    exact h1
  · intro r' hr'
    unfold setC
    by_cases hr : r = r'
    · subst hr
      by_cases hlen : r < g.length
      · rw [getD_set_self _ _ _ _ hlen, List.length_set]
        exact h2 r hr'
      · rw [set_oob _ _ _ (by omega)]
        exact h2 r hr'
    · rw [getD_set_ne _ _ _ _ _ hr]
      exact h2 r' hr'

theorem shape_emptyGrid : Shape emptyGrid := by
  constructor
  · simp [emptyGrid]
  · intro r hr
    unfold emptyGrid
    rw [getD_replicate _ _ _ _ hr]
    simp

theorem placeStep_shape {acc : ExportAcc} {item : EdSymbol × ℚ × ℚ}
    (hS : Shape acc.grid) : Shape (placeStep acc item).grid := by
  simp only [placeStep, apply_ite ExportAcc.grid]
  split
  · exact setC_shape hS
  · exact hS

theorem exportAccOf_shape (placed : List (EdSymbol × ℚ × ℚ)) :
    Shape (exportAccOf placed).grid := by
  unfold exportAccOf
  generalize hinit : (⟨emptyGrid, none, none⟩ : ExportAcc) = acc0
  have h0 : Shape acc0.grid := by rw [← hinit]; exact shape_emptyGrid
  clear hinit
  induction placed generalizing acc0 with
  | nil => exact h0
  | cons it rest ih =>
      rw [List.foldl_cons]
      exact ih _ (placeStep_shape h0)

theorem fillTBStep_shape {sp ep : Option (Int × Int)}
    {g : List (List Char)} {col : Nat} (hS : Shape g) :
    Shape (fillTBStep sp ep g col) := by
  simp only [fillTBStep]
  split
  · split
    · exact setC_shape (setC_shape hS)
    · exact setC_shape hS
  · split
    · exact setC_shape hS
    · exact hS

theorem fillLRStep_shape {sp ep : Option (Int × Int)}
    {g : List (List Char)} {row : Nat} (hS : Shape g) :
    Shape (fillLRStep sp ep g row) := by
  simp only [fillLRStep]
  split
  · split
    · exact setC_shape (setC_shape hS)
    · exact setC_shape hS
  · split
    · exact setC_shape hS
    · exact hS

theorem fillTBStep_options (sp ep : Option (Int × Int))
    (g : List (List Char)) (col r c : Nat) :
    getC (fillTBStep sp ep g col) r c = getC g r c ∨
    getC (fillTBStep sp ep g col) r c = 'X' := by
  simp only [fillTBStep]
  split
  · split
    · rcases getC_setC_cases (setC g 0 col 'X') (GRID_ROWS - 1) col 'X' r c with
        h | h
      · rw [h]
        exact getC_setC_cases g 0 col 'X' r c
      · exact Or.inr h
    · exact getC_setC_cases g 0 col 'X' r c
  · split
    · exact getC_setC_cases g (GRID_ROWS - 1) col 'X' r c
    · exact Or.inl rfl

theorem fillLRStep_options (sp ep : Option (Int × Int))
    (g : List (List Char)) (row r c : Nat) :
    getC (fillLRStep sp ep g row) r c = getC g r c ∨
    getC (fillLRStep sp ep g row) r c = 'X' := by
  simp only [fillLRStep]
  split
  · split
    · rcases getC_setC_cases (setC g row 0 'X') row (GRID_COLS - 1) 'X' r c with
        h | h
      · rw [h]
        exact getC_setC_cases g row 0 'X' r c
      · exact Or.inr h
    · exact getC_setC_cases g row 0 'X' r c
  · split
    · exact getC_setC_cases g row (GRID_COLS - 1) 'X' r c
    · exact Or.inl rfl

theorem foldl_fill_options {step : List (List Char) → Nat → List (List Char)}
    (hstep : ∀ g i r c, getC (step g i) r c = getC g r c ∨
      getC (step g i) r c = 'X') :
    ∀ (L : List Nat) (g : List (List Char)) (r c : Nat),
      getC (L.foldl step g) r c = getC g r c ∨
      getC (L.foldl step g) r c = 'X'
  | [], g, r, c => Or.inl rfl
  | i :: rest, g, r, c => by
      rw [List.foldl_cons]
      rcases foldl_fill_options hstep rest (step g i) r c with h | h
      · rw [h]
        exact hstep g i r c
      · exact Or.inr h

theorem fillTBStep_untouched {sp ep : Option (Int × Int)}
    {g : List (List Char)} {col r c : Nat}
    (h : (r ≠ 0 ∧ r ≠ GRID_ROWS - 1) ∨ c ≠ col) :
    getC (fillTBStep sp ep g col) r c = getC g r c := by
  have h0 : ∀ (g' : List (List Char)) (t : Nat),
      (r ≠ t ∨ c ≠ col) → getC (setC g' t col 'X') r c = getC g' r c := by
    intro g' t ht
    rcases ht with ht | ht
    · exact getC_setC_row_ne (fun he => ht he.symm)
    · exact getC_setC_col_ne (fun he => ht he.symm)
  simp only [fillTBStep]
  have h1 : r ≠ 0 ∨ c ≠ col := by tauto
  have h2 : r ≠ GRID_ROWS - 1 ∨ c ≠ col := by tauto
  split
  · split
    · rw [h0 _ _ (by tauto), h0 _ _ (by tauto)]
    · rw [h0 _ _ (by tauto)]
  · split
    · rw [h0 _ _ (by tauto)]
    · rfl

theorem fillLRStep_untouched {sp ep : Option (Int × Int)}
    {g : List (List Char)} {row r c : Nat}
    (h : (c ≠ 0 ∧ c ≠ GRID_COLS - 1) ∨ r ≠ row) :
    getC (fillLRStep sp ep g row) r c = getC g r c := by
  have h0 : ∀ (g' : List (List Char)) (t : Nat),
      (c ≠ t ∨ r ≠ row) → getC (setC g' row t 'X') r c = getC g' r c := by
    intro g' t ht
    rcases ht with ht | ht
    · exact getC_setC_col_ne (fun he => ht he.symm)
    · exact getC_setC_row_ne (fun he => ht he.symm)
  simp only [fillLRStep]
  split
  · split
    · rw [h0 _ _ (by tauto), h0 _ _ (by tauto)]
    · rw [h0 _ _ (by tauto)]
  · split
    · rw [h0 _ _ (by tauto)]
    · rfl

/-- Rows other than the top and bottom row are untouched by the
top/bottom loop. -/
theorem fillTB_untouched (sp ep : Option (Int × Int)) {r : Nat}
    (hr : r ≠ 0 ∧ r ≠ GRID_ROWS - 1) :
    ∀ (L : List Nat) (g : List (List Char)) (c : Nat),
      getC (L.foldl (fillTBStep sp ep) g) r c = getC g r c
  | [], g, c => rfl
  | i :: rest, g, c => by
      rw [List.foldl_cons, fillTB_untouched sp ep hr rest _ c,
        fillTBStep_untouched (Or.inl hr)]

/-- Columns other than the leftmost and rightmost are untouched by the
left/right loop. -/
theorem fillLR_untouched (sp ep : Option (Int × Int)) {c : Nat}
    (hc : c ≠ 0 ∧ c ≠ GRID_COLS - 1) :
    ∀ (L : List Nat) (g : List (List Char)) (r : Nat),
      getC (L.foldl (fillLRStep sp ep) g) r c = getC g r c
  | [], g, r => rfl
  | i :: rest, g, r => by
      rw [List.foldl_cons, fillLR_untouched sp ep hc rest _ r,
        fillLRStep_untouched (Or.inl hc)]

theorem foldl_fill_shape {step : List (List Char) → Nat → List (List Char)}
    (hstep : ∀ {g : List (List Char)} {i : Nat}, Shape g → Shape (step g i)) :
    ∀ (L : List Nat) {g : List (List Char)}, Shape g → Shape (L.foldl step g)
  | [], _, hS => hS
  | i :: rest, g, hS => by
      rw [List.foldl_cons]
      exact foldl_fill_shape hstep rest (hstep hS)

/-- A single conditional perimeter write walls its target cell, given the
cell currently holds '.' or 'X' and is not the recorded start or end. -/
theorem substep_forces {g : List (List Char)} {t col : Nat}
    {sp ep : Option (Int × Int)} {v : Int × Int}
    (hS : Shape g) (ht : t < GRID_ROWS) (hcol : col < GRID_COLS)
    (hdot : getC g t col = '.' ∨ getC g t col = 'X')
    (hsp : sp ≠ some v) (hep : ep ≠ some v) :
    getC (if getC g t col = '.' ∧ sp ≠ some v ∧ ep ≠ some v
          then setC g t col 'X' else g) t col = 'X' := by
  rcases hdot with hdot | hdot
  · rw [if_pos ⟨hdot, hsp, hep⟩]
    refine getC_setC_self ?_ ?_
    · rw [hS.1]
      exact ht
    · rw [hS.2 t ht]
      exact hcol
  · have hne : ¬(getC g t col = '.' ∧ sp ≠ some v ∧ ep ≠ some v) := by
      intro hcond
      rw [hdot] at hcond
      exact absurd hcond.1 (by decide)
    rw [if_neg hne]
    exact hdot

/-- A conditional perimeter write leaves every other cell unchanged. -/
theorem substep_other {g : List (List Char)} {t' col' t col : Nat}
    {C : Prop} [Decidable C] (h : t' ≠ t ∨ col' ≠ col) :
    getC (if C then setC g t' col' 'X' else g) t col = getC g t col := by
  split
  · rcases h with h | h
    · exact getC_setC_row_ne h
    · exact getC_setC_col_ne h
  · rfl

theorem fillTBStep_forces {sp ep : Option (Int × Int)}
    {g : List (List Char)} {col t : Nat}
    (ht : t = 0 ∨ t = GRID_ROWS - 1) (hS : Shape g) (hcol : col < GRID_COLS)
    (hdot : getC g t col = '.' ∨ getC g t col = 'X')
    (hsp : sp ≠ some ((t : Int), (col : Int)))
    (hep : ep ≠ some ((t : Int), (col : Int))) :
    getC (fillTBStep sp ep g col) t col = 'X' := by
  rcases ht with ht | ht
  · subst ht
    have hsp0 : sp ≠ some ((0 : Int), (col : Int)) := by simpa using hsp
    have hep0 : ep ≠ some ((0 : Int), (col : Int)) := by simpa using hep
    simp only [fillTBStep]
    rw [substep_other (Or.inl (by decide))]
    exact substep_forces hS (by decide) hcol hdot hsp0 hep0
  · subst ht
    have hcast : ((GRID_ROWS - 1 : Nat) : Int) = (GRID_ROWS : Int) - 1 := by
      decide
    rw [hcast] at hsp hep
    simp only [fillTBStep]
    have hg1 : getC
        (if getC g 0 col = '.' ∧ sp ≠ some (0, (col : Int)) ∧
            ep ≠ some (0, (col : Int)) then setC g 0 col 'X' else g)
        (GRID_ROWS - 1) col = getC g (GRID_ROWS - 1) col :=
      substep_other (Or.inl (by decide))
    have hS1 : Shape
        (if getC g 0 col = '.' ∧ sp ≠ some (0, (col : Int)) ∧
            ep ≠ some (0, (col : Int)) then setC g 0 col 'X' else g) := by
      split
      · exact setC_shape hS
      · exact hS
    refine substep_forces hS1 (by decide) hcol ?_ hsp hep
    rw [hg1]
    exact hdot

theorem fillLRStep_forces {sp ep : Option (Int × Int)}
    {g : List (List Char)} {row t : Nat}
    (ht : t = 0 ∨ t = GRID_COLS - 1) (hS : Shape g) (hrow : row < GRID_ROWS)
    (hdot : getC g row t = '.' ∨ getC g row t = 'X')
    (hsp : sp ≠ some ((row : Int), (t : Int)))
    (hep : ep ≠ some ((row : Int), (t : Int))) :
    getC (fillLRStep sp ep g row) row t = 'X' := by
  rcases ht with ht | ht
  · subst ht
    have hsp0 : sp ≠ some ((row : Int), (0 : Int)) := by simpa using hsp
    have hep0 : ep ≠ some ((row : Int), (0 : Int)) := by simpa using hep
    simp only [fillLRStep]
    rw [substep_other (Or.inr (by decide))]
    exact substep_forces hS hrow (by decide) hdot hsp0 hep0
  · subst ht
    have hcast : ((GRID_COLS - 1 : Nat) : Int) = (GRID_COLS : Int) - 1 := by
      decide
    rw [hcast] at hsp hep
    simp only [fillLRStep]
    have hg1 : getC
        (if getC g row 0 = '.' ∧ sp ≠ some ((row : Int), 0) ∧
            ep ≠ some ((row : Int), 0) then setC g row 0 'X' else g)
        row (GRID_COLS - 1) = getC g row (GRID_COLS - 1) :=
      substep_other (Or.inr (by decide))
    have hS1 : Shape
        (if getC g row 0 = '.' ∧ sp ≠ some ((row : Int), 0) ∧
            ep ≠ some ((row : Int), 0) then setC g row 0 'X' else g) := by
      split
      · exact setC_shape hS
      · exact hS
    refine substep_forces hS1 hrow (by decide) ?_ hsp hep
    rw [hg1]
    exact hdot

theorem fillTB_forces (sp ep : Option (Int × Int)) {t : Nat}
    (ht : t = 0 ∨ t = GRID_ROWS - 1) :
    ∀ (n : Nat) (g : List (List Char)) (c : Nat), n ≤ GRID_COLS → c < n →
      Shape g → getC g t c = '.' →
      sp ≠ some ((t : Int), (c : Int)) → ep ≠ some ((t : Int), (c : Int)) →
      getC ((List.range n).foldl (fillTBStep sp ep) g) t c = 'X' := by
  intro n
  induction n with
  | zero => intro g c hn hc; omega
  | succ n ih =>
      intro g c hn hc hS hdot hsp hep
      rw [List.range_succ, List.foldl_append, List.foldl_cons, List.foldl_nil]
      by_cases hcn : c < n
      · rw [fillTBStep_untouched (Or.inr (by omega))]
        exact ih g c (by omega) hcn hS hdot hsp hep
      · have hceq : c = n := by omega
        subst hceq
        have hopt := foldl_fill_options
          (fun g i r c => fillTBStep_options sp ep g i r c)
          (List.range c) g t c
        have hSn : Shape ((List.range c).foldl (fillTBStep sp ep) g) :=
          foldl_fill_shape (fun h => fillTBStep_shape h) _ hS
        refine fillTBStep_forces ht hSn (by omega) ?_ hsp hep
        rcases hopt with h | h
        · rw [h]
          exact Or.inl hdot
        · exact Or.inr h

theorem fillLR_forces (sp ep : Option (Int × Int)) {t : Nat}
    (ht : t = 0 ∨ t = GRID_COLS - 1) :
    ∀ (n : Nat) (g : List (List Char)) (r : Nat), n ≤ GRID_ROWS → r < n →
      Shape g → getC g r t = '.' →
      sp ≠ some ((r : Int), (t : Int)) → ep ≠ some ((r : Int), (t : Int)) →
      getC ((List.range n).foldl (fillLRStep sp ep) g) r t = 'X' := by
  intro n
  induction n with
  | zero => intro g r hn hr; omega
  | succ n ih =>
      intro g r hn hr hS hdot hsp hep
      rw [List.range_succ, List.foldl_append, List.foldl_cons, List.foldl_nil]
      by_cases hrn : r < n
      · rw [fillLRStep_untouched (Or.inr (by omega))]
        exact ih g r (by omega) hrn hS hdot hsp hep
      · have hreq : r = n := by omega
        subst hreq
        have hopt := foldl_fill_options
          (fun g i r c => fillLRStep_options sp ep g i r c)
          (List.range r) g r t
        have hSn : Shape ((List.range r).foldl (fillLRStep sp ep) g) :=
          foldl_fill_shape (fun h => fillLRStep_shape h) _ hS
        refine fillLRStep_forces ht hSn (by omega) ?_ hsp hep
        rcases hopt with h | h
        · rw [h]
          exact Or.inl hdot
        · exact Or.inr h

theorem layoutChar_map_mk :
    ∀ (g : List (List Char)) (r c : Nat),
      layoutChar (g.map String.mk) r c = getC g r c
  | [], _, _ => rfl
  | _ :: _, 0, _ => rfl
  | _ :: rest, r + 1, c => layoutChar_map_mk rest r c

theorem getC_emptyGrid {r c : Nat} (hr : r < GRID_ROWS) (hc : c < GRID_COLS) :
    getC emptyGrid r c = '.' := by
  unfold getC emptyGrid
  rw [getD_replicate _ _ _ _ hr, getD_replicate _ _ _ _ hc]

/-- Core of C5: in the exported layout every perimeter cell that the
placement loop left as floor and that is not the recorded start or end
is walled. -/
theorem perimeter_core (placed : List (EdSymbol × ℚ × ℚ)) (r c : Nat)
    (hr : r < GRID_ROWS) (hc : c < GRID_COLS)
    (hperim : r = 0 ∨ r = GRID_ROWS - 1 ∨ c = 0 ∨ c = GRID_COLS - 1)
    (hdot : getC (exportAccOf placed).grid r c = '.')
    (hsp : (exportAccOf placed).start_pos ≠ some ((r : Int), (c : Int)))
    (hep : (exportAccOf placed).end_pos ≠ some ((r : Int), (c : Int))) :
    layoutChar (get_custom_level_layout placed) r c = 'X' := by
  unfold get_custom_level_layout
  rw [layoutChar_map_mk]
  have hSpre := exportAccOf_shape placed
  by_cases hrow : r = 0 ∨ r = GRID_ROWS - 1
  · have hmid : getC (fillTB (exportAccOf placed).start_pos
        (exportAccOf placed).end_pos (exportAccOf placed).grid) r c = 'X' := by
      unfold fillTB
      exact fillTB_forces _ _ hrow GRID_COLS _ c (le_refl _) hc hSpre hdot
        hsp hep
    unfold fillLR
    rcases foldl_fill_options
        (fun g i r' c' => fillLRStep_options (exportAccOf placed).start_pos
          (exportAccOf placed).end_pos g i r' c')
        (List.range GRID_ROWS) _ r c with h | h
    · rw [h]
      exact hmid
    · exact h
  · have hcol : c = 0 ∨ c = GRID_COLS - 1 := by tauto
    have hmid : getC (fillTB (exportAccOf placed).start_pos
        (exportAccOf placed).end_pos (exportAccOf placed).grid) r c
        = getC (exportAccOf placed).grid r c := by
      unfold fillTB
      exact fillTB_untouched _ _ (by tauto) _ _ _
    have hSmid : Shape (fillTB (exportAccOf placed).start_pos
        (exportAccOf placed).end_pos (exportAccOf placed).grid) := by
      unfold fillTB
      exact foldl_fill_shape (fun h => fillTBStep_shape h) _ hSpre
    unfold fillLR
    exact fillLR_forces _ _ hcol GRID_ROWS _ r (le_refl _) hr hSmid
      (hmid.trans hdot) hsp hep

/-- C5: `get_custom_level_layout` forces every perimeter cell that is
still open floor and is not the recorded start or end cell to the wall
symbol; in particular, exporting with an empty placement list yields a
grid whose entire perimeter is wall and whose interior is entirely
floor. -/
theorem perimeter_filled :
    (∀ (placed : List (EdSymbol × ℚ × ℚ)) (r c : Nat),
      r < GRID_ROWS → c < GRID_COLS →
      (r = 0 ∨ r = GRID_ROWS - 1 ∨ c = 0 ∨ c = GRID_COLS - 1) →
      getC (exportAccOf placed).grid r c = '.' →
      (exportAccOf placed).start_pos ≠ some ((r : Int), (c : Int)) →
      (exportAccOf placed).end_pos ≠ some ((r : Int), (c : Int)) →
      layoutChar (get_custom_level_layout placed) r c = 'X') ∧
    (∀ r c : Nat, r < GRID_ROWS → c < GRID_COLS →
      layoutChar (get_custom_level_layout []) r c =
        if r = 0 ∨ r = GRID_ROWS - 1 ∨ c = 0 ∨ c = GRID_COLS - 1 then 'X'
        else '.') := by
  constructor
  · exact fun placed r c h1 h2 h3 h4 h5 h6 =>
      perimeter_core placed r c h1 h2 h3 h4 h5 h6
  · intro r c hr hc
    by_cases hperim : r = 0 ∨ r = GRID_ROWS - 1 ∨ c = 0 ∨ c = GRID_COLS - 1
    · rw [if_pos hperim]
      refine perimeter_core [] r c hr hc hperim ?_ ?_ ?_
      · exact getC_emptyGrid hr hc
      · intro h
        exact Option.noConfusion h
      · intro h
        exact Option.noConfusion h
    · rw [if_neg hperim]
      push_neg at hperim
      unfold get_custom_level_layout
      rw [layoutChar_map_mk]
      unfold fillLR
      rw [fillLR_untouched _ _ ⟨hperim.2.2.1, hperim.2.2.2⟩]
      unfold fillTB
      rw [fillTB_untouched _ _ ⟨hperim.1, hperim.2.1⟩]
      exact getC_emptyGrid hr hc

/-- Witness for C5: with no placements, the perimeter cell (0, 5) of the
exported layout is a wall. -/
theorem perimeter_filled_witness :
    layoutChar (get_custom_level_layout []) 0 5 = 'X' :=
  perimeter_filled.1 [] 0 5 (by decide) (by decide) (Or.inl rfl) (by decide)
    (fun h => Option.noConfusion h) (fun h => Option.noConfusion h)

theorem roundHalfEven_intCast (n : ℤ) : roundHalfEven ((n : ℚ)) = n := by
  unfold roundHalfEven
  rw [Int.floor_intCast, sub_self, if_pos (by norm_num : (0 : ℚ) < 1 / 2)]

theorem pixel_to_cell_zero_zero :
    pixel_to_cell 0 0 = ((0 : Int), (0 : Int)) := by
  unfold pixel_to_cell
  have h : (0 : ℚ) / ((CELL_SIZE : Int) : ℚ) = ((0 : ℤ) : ℚ) := by
    norm_num
  rw [h, roundHalfEven_intCast]

theorem pixel_to_cell_zero_neg240 :
    pixel_to_cell 0 (-240) = ((0 : Int), (-10 : Int)) := by
  unfold pixel_to_cell
  have hx : (0 : ℚ) / ((CELL_SIZE : Int) : ℚ) = ((0 : ℤ) : ℚ) := by
    norm_num
  have hy : (-240 : ℚ) / ((CELL_SIZE : Int) : ℚ) = ((-10 : ℤ) : ℚ) := by
    norm_num [CELL_SIZE]
  rw [hx, hy, roundHalfEven_intCast, roundHalfEven_intCast]

/-- Routing of `handle_click` to the grid-placement path: away from the
control buttons and the palette band, with a symbol selected, the click
either passes the `abs(cell) < GRID//2` bounds test and reaches the
placement checks, or is dropped with no mutation, no action and no
message. -/
theorem handle_click_grid {st : EditorState} {x y : ℚ} {sym : EdSymbol}
    (h1 : ¬ playButton.containsPoint x y)
    (h2 : ¬ clearButton.containsPoint x y)
    (h3 : ¬ paletteBand x) (hsel : st.selected_item = some sym) :
    handle_click st x y =
      if |(pixel_to_cell x y).1| < (GRID_COLS : Int) / 2 ∧
          |(pixel_to_cell x y).2| < (GRID_ROWS : Int) / 2 then
        placeItem st sym
          (cell_to_pixel (pixel_to_cell x y).1 (pixel_to_cell x y).2)
      else (st, none, []) := by
  unfold handle_click
  rw [if_neg h1, if_neg h2, if_neg h3, hsel]

theorem placeItem_reject {st : EditorState} {sym : EdSymbol}
    {pixel : Int × Int}
    (h : tileOccupied st ((pixel.1 : ℚ)) ((pixel.2 : ℚ)) ∨
        (sym = EdSymbol.s ∧ hasStart st) ∨
        (sym = EdSymbol.f ∧ hasEnd st)) :
    (placeItem st sym pixel).1 = st := by
  unfold placeItem
  by_cases h1 : tileOccupied st ((pixel.1 : ℚ)) ((pixel.2 : ℚ))
  · rw [if_pos h1]
  · rw [if_neg h1]
    by_cases h2 : sym = EdSymbol.s ∧ hasStart st
    · rw [if_pos h2]
    · rw [if_neg h2]
      by_cases h3 : sym = EdSymbol.f ∧ hasEnd st
      · rw [if_pos h3]
      · rcases h with h | h | h
        · exact absurd h h1
        · exact absurd h h2
        · exact absurd h h3

/-- C6: a grid placement rejected for stacking, for a duplicate start
marker or for a duplicate end marker leaves the placement list
unchanged; concretely, placing a treasure at the canonical cell of
pixel (0, 0) and then a wall at the same cell rejects the wall with the
"no stacking" message and leaves exactly the treasure placed. -/
theorem placement_rejection_no_mutation :
    (∀ (st : EditorState) (x y : ℚ) (sym : EdSymbol),
      ¬ playButton.containsPoint x y → ¬ clearButton.containsPoint x y →
      ¬ paletteBand x → st.selected_item = some sym →
      (tileOccupied st
          (((cell_to_pixel (pixel_to_cell x y).1 (pixel_to_cell x y).2).1 : ℚ))
          (((cell_to_pixel (pixel_to_cell x y).1 (pixel_to_cell x y).2).2 : ℚ)) ∨
        (sym = EdSymbol.s ∧ hasStart st) ∨
        (sym = EdSymbol.f ∧ hasEnd st)) →
      (handle_click st x y).1.placed_items = st.placed_items) ∧
    ((handle_click ⟨some EdSymbol.t, []⟩ 0 0).1
        = ⟨some EdSymbol.t, [(EdSymbol.t, (0 : ℚ), (0 : ℚ))]⟩ ∧
      handle_click ⟨some EdSymbol.m, [(EdSymbol.t, (0 : ℚ), (0 : ℚ))]⟩ 0 0
        = (⟨some EdSymbol.m, [(EdSymbol.t, (0 : ℚ), (0 : ℚ))]⟩, none,
            [stackMsg])) := by
  constructor
  · intro st x y sym h1 h2 h3 hsel hrej
    rw [handle_click_grid h1 h2 h3 hsel]
    split
    · rw [placeItem_reject hrej]
    · rfl
  · have h1 : ¬ playButton.containsPoint (0 : ℚ) 0 := by
      unfold playButton Button.containsPoint
      norm_num
    have h2 : ¬ clearButton.containsPoint (0 : ℚ) 0 := by
      unfold clearButton Button.containsPoint
      norm_num
    have h3 : ¬ paletteBand (0 : ℚ) := by
      unfold paletteBand
      norm_num
    constructor
    · rw [handle_click_grid h1 h2 h3 rfl, pixel_to_cell_zero_zero,
        if_pos (by decide)]
      unfold placeItem
      rw [if_neg (by simp [tileOccupied]),
        if_neg (by rintro ⟨h, -⟩; cases h),
        if_neg (by rintro ⟨h, -⟩; cases h)]
      simp [cell_to_pixel]
    · rw [handle_click_grid h1 h2 h3 rfl, pixel_to_cell_zero_zero,
        if_pos (by decide)]
      unfold placeItem
      rw [if_pos ?occ]
      case occ =>
        refine ⟨(EdSymbol.t, (0 : ℚ), (0 : ℚ)), List.mem_singleton.mpr rfl,
          ?_, ?_⟩ <;> norm_num [cell_to_pixel]

/-- Witness for C6: with a treasure already at the canonical pixel
(0, 0) and the wall symbol selected, a click at (0, 0) leaves the
placement list unchanged. -/
theorem placement_rejection_no_mutation_witness :
    (handle_click ⟨some EdSymbol.m, [(EdSymbol.t, (0 : ℚ), (0 : ℚ))]⟩
        0 0).1.placed_items = [(EdSymbol.t, (0 : ℚ), (0 : ℚ))] :=
  placement_rejection_no_mutation.1
    ⟨some EdSymbol.m, [(EdSymbol.t, (0 : ℚ), (0 : ℚ))]⟩ 0 0 EdSymbol.m
    (by unfold playButton Button.containsPoint; norm_num)
    (by unfold clearButton Button.containsPoint; norm_num)
    (by unfold paletteBand; norm_num)
    rfl
    (Or.inl (by
      rw [pixel_to_cell_zero_zero]
      exact ⟨(EdSymbol.t, (0 : ℚ), (0 : ℚ)), List.mem_singleton.mpr rfl,
        by norm_num [cell_to_pixel], by norm_num [cell_to_pixel]⟩))

/-- C7 as stated is false: the bounds test accepts only cells with
`abs(cell_x) < GRID_COLS // 2` and `abs(cell_y) < GRID_ROWS // 2`, which
silently drops clicks whose nearest cell is grid row 0, column 0 or
column 24 — cells inside the configured 20 x 25 grid.  Counterexample: a
click at (0, -240) with the wall symbol selected and nothing placed has
nearest cell (0, -10), i.e. grid (row, col) = (0, 12), inside the
configured range, yet nothing is appended and no message is shown, while
the placement checks would have appended the item. -/
theorem grid_interior_click_dropped :
    cellToRowCol (pixel_to_cell 0 (-240)) = ((0 : Int), (12 : Int)) ∧
    (0 : Int) < (GRID_ROWS : Int) ∧ (12 : Int) < (GRID_COLS : Int) ∧
    handle_click ⟨some EdSymbol.m, []⟩ 0 (-240)
      = (⟨some EdSymbol.m, []⟩, none, []) ∧
    (placeItem ⟨some EdSymbol.m, []⟩ EdSymbol.m
        (cell_to_pixel (pixel_to_cell 0 (-240)).1
          (pixel_to_cell 0 (-240)).2)).1.placed_items ≠ [] := by
  have hpc := pixel_to_cell_zero_neg240
  refine ⟨?_, by decide, by decide, ?_, ?_⟩
  · rw [hpc]
    decide
  · rw [handle_click_grid (by unfold playButton Button.containsPoint; norm_num)
        (by unfold clearButton Button.containsPoint; norm_num)
        (by unfold paletteBand; norm_num) rfl, hpc, if_neg (by decide)]
  · rw [hpc]
    unfold placeItem
    rw [if_neg (by simp [tileOccupied]),
      if_neg (by rintro ⟨h, -⟩; cases h),
      if_neg (by rintro ⟨h, -⟩; cases h)]
    simp

/-- C7, amended: a grid click (symbol selected, away from buttons and
palette) proceeds to the occupancy/start/end checks exactly when its
nearest cell satisfies `abs(cell_x) < GRID_COLS // 2` and
`abs(cell_y) < GRID_ROWS // 2` (grid columns 1-23 and rows 1-19); any
other click — including clicks on grid row 0, column 0 and column 24,
which lie inside the configured grid — is rejected silently, with no
placement and no message. -/
theorem bounds_test_strict_interior (st : EditorState) (x y : ℚ)
    (sym : EdSymbol) (h1 : ¬ playButton.containsPoint x y)
    (h2 : ¬ clearButton.containsPoint x y) (h3 : ¬ paletteBand x)
    (hsel : st.selected_item = some sym) :
    (¬(|(pixel_to_cell x y).1| < (GRID_COLS : Int) / 2 ∧
        |(pixel_to_cell x y).2| < (GRID_ROWS : Int) / 2) →
      handle_click st x y = (st, none, [])) ∧
    ((|(pixel_to_cell x y).1| < (GRID_COLS : Int) / 2 ∧
        |(pixel_to_cell x y).2| < (GRID_ROWS : Int) / 2) →
      handle_click st x y = placeItem st sym
        (cell_to_pixel (pixel_to_cell x y).1 (pixel_to_cell x y).2)) := by
  constructor
  · intro hnb
    rw [handle_click_grid h1 h2 h3 hsel, if_neg hnb]
  · intro hb
    rw [handle_click_grid h1 h2 h3 hsel, if_pos hb]

/-- Witness for amended C7: the click at (0, -240) (nearest cell
(0, -10), failing the `abs(cell_y) < 10` test) is dropped silently. -/
theorem bounds_test_strict_interior_witness :
    handle_click ⟨some EdSymbol.m, []⟩ 0 (-240)
      = (⟨some EdSymbol.m, []⟩, none, []) :=
  (bounds_test_strict_interior ⟨some EdSymbol.m, []⟩ 0 (-240) EdSymbol.m
      (by unfold playButton Button.containsPoint; norm_num)
      (by unfold clearButton Button.containsPoint; norm_num)
      (by unfold paletteBand; norm_num) rfl).1
    (by rw [pixel_to_cell_zero_neg240]; decide)

end Laby

